import Mathlib

/-!
Verification of the conversation core of the telegram-aesthetic-bot
repository.

The bot lets a user accumulate per-chat style-reference images and then
transform a subject image by calling a remote image-generation
capability.  The repository has two variants of the same pipeline: a
polling variant (`main.py`, file-system reference store) and a
serverless variant (`api/index.py`, database-backed reference store).

This file is a shallow embedding of the parts of both variants that the
specification talks about:

* the intent classifier (caption keyword sniffing plus session mode),
  `main.py` lines 110-113 and `api/index.py` lines 106-111;
* the reference store helpers of the serverless variant
  (`get_user_state`, `set_user_state`, `get_style_files`,
  `add_style_file`, `clear_style_files`, `api/index.py` lines 40-62),
  with the database table modelled explicitly: rows carry the
  `created_at` column, assigned by the database as a strictly
  increasing counter, and `order('created_at')` is modelled as sorting
  on that column;
* the file-system store of the polling variant (`get_style_images`,
  `clear_style`, `main.py` lines 40-47 and 79-88): a list of saved file
  names, pattern matching for the two glob patterns, and `sorted`;
* the composition orchestrator of both variants (reference cap,
  payload assembly, result extraction, error classification,
  `main.py` lines 128-198 and `api/index.py` lines 119-179), with the
  generation capability abstracted as an oracle and the number of
  oracle invocations counted.

Images and telegram file handles are opaque; they are modelled by an
arbitrary value (`Nat` for payload images, `String` for stored file
identifiers), since the code never inspects their contents.
-/

namespace TelegramAestheticBot

/-! ## Substring containment (the Python `needle in hay` test) -/

/-- Test `startsWithL pre l` is true when the list `l` starts with `pre`.
Helper for the substring test below. -/
def startsWithL : List Char → List Char → Bool
  | [], _ => true
  | _ :: _, [] => false
  | a :: as, b :: bs => a == b && startsWithL as bs

/-- Test `containsL needle hay` is true when `needle` occurs as a contiguous
sublist of `hay`.  This is exactly the semantics of the Python
expression `needle in hay` on strings. -/
def containsL (needle : List Char) : List Char → Bool
  | [] => startsWithL needle []
  | b :: bs => startsWithL needle (b :: bs) || containsL needle bs

/-- Test `strContains hay needle` models the Python test `needle in hay`. -/
def strContains (hay needle : String) : Bool :=
  containsL needle.data hay.data

/-- Specification-side notion of substring containment, written the way
the spec says it ("contains, as a substring"): `w` occurs contiguously
inside `s`. -/
def SpecSubstr (w s : String) : Prop :=
  ∃ p q : List Char, s.data = p ++ w.data ++ q

/-! ## Caption normalization and the intent classifier -/

/-- Python `str.strip()` on the character list: drop leading and
trailing whitespace. -/
def pyStrip (l : List Char) : List Char :=
  ((l.dropWhile Char.isWhitespace).reverse.dropWhile Char.isWhitespace).reverse

/-- Python `str.lower()` on the character list. -/
def pyLower (l : List Char) : List Char :=
  l.map Char.toLower

/-- Models `caption_text = (update.message.caption or "").strip().lower()`
(`main.py` line 110, `api/index.py` line 106).  A photo with no caption
is `none`. -/
def caption_text (caption : Option String) : String :=
  String.mk (pyLower (pyStrip (caption.getD "").data))

/-- The fixed caption keyword list of `main.py` line 111 /
`api/index.py` line 107. -/
def saveKeywords : List String :=
  ["add", "ref", "style", "salva", "mood"]

/-- Models `any(word in caption_text for word in ["add", "ref", "style",
"salva", "mood"])`. -/
def is_caption_asking_to_save (captionText : String) : Bool :=
  saveKeywords.any (fun word => strContains captionText word)

/-- The two possible decisions for an incoming photo. -/
inductive Intent where
  | SAVE_AS_REFERENCE
  | TREAT_AS_SUBJECT
deriving Repr, DecidableEq

/-- The intent decision of `handle_image` (`main.py` line 113,
`api/index.py` line 111): save when the session flag is set or the
caption asks to save, otherwise treat the photo as a subject. -/
def classify (sessionMode : Bool) (caption : Option String) : Intent :=
  if sessionMode || is_caption_asking_to_save (caption_text caption) then
    Intent.SAVE_AS_REFERENCE
  else
    Intent.TREAT_AS_SUBJECT

/-! ## A stable sort

Both the database's `order('created_at')` and Python's `sorted` are
stable sorts; they are modelled by insertion sort, which is stable and
kernel-computable. -/

/-- Insert `a` into `l`, before the first element not below `a`. -/
def insertSorted (le : α → α → Bool) (a : α) : List α → List α
  | [] => [a]
  | b :: bs => if le a b then a :: b :: bs else b :: insertSorted le a bs

/-- Stable insertion sort with respect to the comparison `le`. -/
def sortBy (le : α → α → Bool) (l : List α) : List α :=
  l.foldr (insertSorted le) []

/-! ## The serverless reference store (`api/index.py` lines 40-62)

The Supabase client is `None` when `SUPABASE_URL`/`SUPABASE_KEY` are not
configured; every helper starts with `if not supabase: return <default>`.
The backing table is modelled explicitly: `style_references` rows carry
the `created_at` timestamp column, which the database assigns as a
strictly increasing counter (`clock`), and `order('created_at')` is
modelled as sorting on that column. -/

/-- A row of the `style_references` table. -/
structure StyleRow where
  chat_id : String
  file_id : String
  created_at : Nat
deriving Repr, DecidableEq

/-- The state of the backing database: the `style_references` table (in
physical insertion order), the `user_states` table, and the counter
from which the next `created_at` value is drawn. -/
structure SupabaseState where
  style_references : List StyleRow
  user_states : List (String × Bool)
  clock : Nat
deriving Repr, DecidableEq

/-- A freshly created database. -/
def initialState : SupabaseState :=
  { style_references := [], user_states := [], clock := 0 }

/-- Comparison on the `created_at` column, used to model
`order('created_at')`. -/
def rowLe (a b : StyleRow) : Bool :=
  decide (a.created_at ≤ b.created_at)

/-- The database query behind `get_style_files`: select `file_id` where
`chat_id` matches, ordered by `created_at`. -/
def selectStyleFiles (st : SupabaseState) (chat_id : String) : List String :=
  (sortBy rowLe (st.style_references.filter (fun r => r.chat_id == chat_id))).map
    StyleRow.file_id

/-- The insert behind `add_style_file`: append a row whose `created_at`
is assigned by the database. -/
def insertStyleFile (st : SupabaseState) (chat_id file_id : String) : SupabaseState :=
  { st with
    style_references := st.style_references ++ [⟨chat_id, file_id, st.clock⟩],
    clock := st.clock + 1 }

/-- The delete behind `clear_style_files`: remove every row whose
`chat_id` matches. -/
def deleteStyleFiles (st : SupabaseState) (chat_id : String) : SupabaseState :=
  { st with
    style_references := st.style_references.filter (fun r => !(r.chat_id == chat_id)) }

/-- The upsert behind `set_user_state`: replace the row keyed by
`chat_id` if present, otherwise insert it. -/
def upsertState : List (String × Bool) → String → Bool → List (String × Bool)
  | [], c, b => [(c, b)]
  | p :: ps, c, b => if p.1 == c then (c, b) :: ps else p :: upsertState ps c b

/-- Function `get_style_files` (`api/index.py` lines 51-54): `[]` when the client
is not configured, otherwise the ordered query. -/
def get_style_files (supabase : Option SupabaseState) (chat_id : String) : List String :=
  match supabase with
  | none => []
  | some st => selectStyleFiles st chat_id

/-- Function `add_style_file` (`api/index.py` lines 56-58): no-op when the client
is not configured, otherwise insert a row. -/
def add_style_file (supabase : Option SupabaseState) (chat_id file_id : String) :
    Option SupabaseState :=
  match supabase with
  | none => none
  | some st => some (insertStyleFile st chat_id file_id)

/-- Function `clear_style_files` (`api/index.py` lines 60-62): no-op when the
client is not configured, otherwise delete the matching rows. -/
def clear_style_files (supabase : Option SupabaseState) (chat_id : String) :
    Option SupabaseState :=
  match supabase with
  | none => none
  | some st => some (deleteStyleFiles st chat_id)

/-- Function `get_user_state` (`api/index.py` lines 40-45): `False` when the
client is not configured or no row exists, otherwise the stored flag. -/
def get_user_state (supabase : Option SupabaseState) (chat_id : String) : Bool :=
  match supabase with
  | none => false
  | some st =>
    match st.user_states.find? (fun p => p.1 == chat_id) with
    | some p => p.2
    | none => false

/-- Function `set_user_state` (`api/index.py` lines 47-49): no-op when the client
is not configured, otherwise upsert the flag. -/
def set_user_state (supabase : Option SupabaseState) (chat_id : String) (state : Bool) :
    Option SupabaseState :=
  match supabase with
  | none => none
  | some st => some { st with user_states := upsertState st.user_states chat_id state }

/-- Folding a sequence of `add_style_file` inserts for one chat over a
database state. -/
def appendAllFiles (st : SupabaseState) (chat_id : String) (handles : List String) :
    SupabaseState :=
  handles.foldl (fun s h => insertStyleFile s chat_id h) st

/-- Invariant maintained by the modelled database: the `created_at`
column strictly increases along physical insertion order and is always
below the counter. -/
def ClockOrdered (st : SupabaseState) : Prop :=
  List.Pairwise (fun a b => a.created_at < b.created_at) st.style_references ∧
  ∀ r ∈ st.style_references, r.created_at < st.clock

/-! ## The file-system reference store (`main.py` lines 34-47 and 79-88)

The styles directory is modelled as the list of saved file names.
`get_style_images` globs `{chat_id}_*.jpg` and `{chat_id}_*.png` and
sorts the union; `clear_style` removes every file that
`get_style_images` returned. -/

/-- Test `endsWithL suf l` is true when `l` ends with `suf`. -/
def endsWithL (suf l : List Char) : Bool :=
  startsWithL suf.reverse l.reverse

/-- Strict lexicographic comparison of character lists by code point;
this is Python's string comparison. -/
def lexLt : List Char → List Char → Bool
  | [], [] => false
  | [], _ :: _ => true
  | _ :: _, [] => false
  | a :: as, b :: bs => if a < b then true else if b < a then false else lexLt as bs

/-- String order used to model Python `sorted` on file names:
code-point lexicographic, `a ≤ b` iff not `b < a`. -/
def strLe (a b : String) : Bool :=
  !(lexLt b.data a.data)

/-- Whether a file name matches the glob pattern
`{chat_id}_*.{ext}`. -/
def matchesGlob (chat_id ext : String) (name : String) : Bool :=
  startsWithL (chat_id ++ "_").data name.data && endsWithL ext.data name.data

/-- Function `get_style_images` (`main.py` lines 40-47): glob the `.jpg` pattern,
then the `.png` pattern, and sort the collected names. -/
def get_style_images (files : List String) (chat_id : String) : List String :=
  sortBy strLe
    ((files.filter (matchesGlob chat_id ".jpg")) ++
      (files.filter (matchesGlob chat_id ".png")))

/-- Function `clear_style` (`main.py` lines 79-88): remove every file returned by
`get_style_images` for this chat. -/
def clear_style (files : List String) (chat_id : String) : List String :=
  files.filter (fun f => !((get_style_images files chat_id).contains f))

/-- The file name built by the save path of `main.py` lines 115-117:
`filename = os.path.join(STYLES_DIR, f"{chat_id}_{ts}.jpg")` with
`ts = int(time.time() * 1000)`.  The directory prefix is common to all
files and omitted; the millisecond timestamp `ts` is an input from the
environment's clock. -/
def tsName (chat_id : String) (ts : Nat) : String :=
  chat_id ++ "_" ++ Nat.repr ts ++ ".jpg"

/-- The save of `main.py` line 118 (`image.save(filename, ...)`): if a
file with this name already exists it is overwritten in place, so the
set of saved names is unchanged; otherwise the new name is created. -/
def saveStyleImage (files : List String) (chat_id : String) (ts : Nat) : List String :=
  if tsName chat_id ts ∈ files then files else files ++ [tsName chat_id ts]

/-- A sequence of saves for one chat, at the given clock readings. -/
def saveAllStyleImages (files : List String) (chat_id : String) (tss : List Nat) :
    List String :=
  tss.foldl (fun fs ts => saveStyleImage fs chat_id ts) files

/-- Hypothesis that a file list holds no file of the given chat: none
of its names matches either glob pattern of `get_style_images`. -/
def CleanFor (files : List String) (chat_id : String) : Prop :=
  ∀ f ∈ files, matchesGlob chat_id ".jpg" f = false ∧ matchesGlob chat_id ".png" f = false

/-! ## The composition orchestrator

`main.py` lines 128-198 and `api/index.py` lines 119-179.  The
generation capability (`gemini_client.models.generate_content`) is
abstracted as an oracle from the assembled payload to either a list of
response parts or a raised error carrying a message string.  The
transform functions return the classified outcome together with the
number of oracle invocations. -/

/-- An item of the multimodal payload handed to the generation
capability: the instruction text or an (opaque) image. -/
inductive Content where
  | text (s : String)
  | image (img : Nat)
deriving Repr, DecidableEq

/-- The fixed instruction text, identical in both variants
(`main.py` lines 141-144, `api/index.py` lines 144-147). -/
def prompt : String :=
  "Maintain the main subject, composition, and content of the first image perfectly intact. Apply the exact aesthetic, mood, lighting, color grading, and style of the supplementary reference images to the main subject."

/-- The payload plus the truncation signal of the polling variant. -/
structure MainComposition where
  contents : List Content
  truncationNotice : Bool
deriving Repr, DecidableEq

/-- From `main.py` lines 148-156: if more than 10 references are loaded,
keep the first 10 and send the user a truncation notice
(`truncationNotice` records that the notice reply of line 154 was
sent); then `contents = [prompt, image] + loaded_styles`. -/
def mainCompose (image : Nat) (loaded_styles : List Nat) : MainComposition :=
  if loaded_styles.length > 10 then
    { contents :=
        Content.text prompt :: Content.image image ::
          ((loaded_styles.take 10).map Content.image),
      truncationNotice := true }
  else
    { contents :=
        Content.text prompt :: Content.image image :: (loaded_styles.map Content.image),
      truncationNotice := false }

/-- The truncation notice of `main.py` line 154. -/
def mainTruncationMessage : String :=
  "Hai più di 10 referenze salvate. Uso le prime 10 per non sovraccaricare il modello Gemini, tranquillo il mood è preservato."

/-- From `api/index.py` lines 138-149: download only `ref_file_ids[:10]` and
assemble `contents = [prompt, subject_image] + loaded_styles`.  There is
no truncation notice anywhere in this variant. -/
def apiCompose (subject_image : Nat) (ref_file_ids : List Nat) : List Content :=
  Content.text prompt :: Content.image subject_image ::
    ((ref_file_ids.take 10).map Content.image)

/-- One part of the generation response.  `hasAsImage` models
`hasattr(part, 'as_image')`; `asImage` models the value of
`part.as_image()`, `none` standing for Python `None`. -/
structure Part where
  hasAsImage : Bool
  asImage : Option Nat
deriving Repr, DecidableEq

/-- Outcome of one call to the generation capability: the response
parts on success, or the text of the raised exception on failure. -/
inductive GenResponse where
  | success (parts : List Part)
  | failure (message : String)

/-- Whether the loop body of `main.py` lines 172-178 /
`api/index.py` lines 161-166 accepts this part:
`hasattr(part, 'as_image') and (img := part.as_image())`. -/
def resolvesToImage (p : Part) : Bool :=
  p.hasAsImage && p.asImage.isSome

/-- The scan loop with `break`: the first accepted part's image, or
`none` when no part is accepted. -/
def extractImage : List Part → Option Nat
  | [] => none
  | p :: ps => if resolvesToImage p then p.asImage else extractImage ps

/-- Default part used to state positional properties without dependent
indexing. -/
def defaultPart : Part :=
  ⟨false, none⟩

/-- The classified outcome of one transform request. -/
inductive TransformResult where
  | noReferencesConfigured
  | generatedImage (img : Nat)
  | generationEmpty
  | quotaExceeded (message : String)
  | generationFailed (message : String)
deriving Repr, DecidableEq

/-- The `except` branch of both variants (`main.py` lines 185-198,
`api/index.py` lines 173-179): a failure whose text contains `"429"` or
`"RESOURCE_EXHAUSTED"` is the quota case, anything else is a generic
generation failure carrying the raw text. -/
def classify_error (error_str : String) : TransformResult :=
  if strContains error_str "429" || strContains error_str "RESOURCE_EXHAUSTED" then
    TransformResult.quotaExceeded error_str
  else
    TransformResult.generationFailed error_str

/-- The subject branch of `handle_image` in `main.py` (lines 128-198):
fail fast on an empty reference list without calling the oracle,
otherwise assemble the payload, call the oracle once and classify the
outcome.  The second component counts oracle invocations. -/
def mainTransform (gen : List Content → GenResponse) (image : Nat)
    (style_files : List Nat) : TransformResult × Nat :=
  if style_files.isEmpty then
    (TransformResult.noReferencesConfigured, 0)
  else
    match gen (mainCompose image style_files).contents with
    | GenResponse.failure e => (classify_error e, 1)
    | GenResponse.success parts =>
      match extractImage parts with
      | some img => (TransformResult.generatedImage img, 1)
      | none => (TransformResult.generationEmpty, 1)

/-- The subject branch of `handle_image` in `api/index.py`
(lines 119-179), same shape with the silently capped payload. -/
def apiTransform (gen : List Content → GenResponse) (subject_image : Nat)
    (ref_file_ids : List Nat) : TransformResult × Nat :=
  if ref_file_ids.isEmpty then
    (TransformResult.noReferencesConfigured, 0)
  else
    match gen (apiCompose subject_image ref_file_ids) with
    | GenResponse.failure e => (classify_error e, 1)
    | GenResponse.success parts =>
      match extractImage parts with
      | some img => (TransformResult.generatedImage img, 1)
      | none => (TransformResult.generationEmpty, 1)

/-- The user-facing reply texts of the polling variant, by outcome. -/
def mainReply : TransformResult → String
  | TransformResult.noReferencesConfigured =>
      "Non hai impostato alcuna immagine di referenza per lo stile. Per favore, usa /set_style e inviami alcune immagini da usare come moodboard, poi chiudi con /done_style prima di inviarmi la foto che vuoi modificare."
  | TransformResult.generatedImage _ => "Ecco la tua immagine trasformata!"
  | TransformResult.generationEmpty =>
      "Generazione fallita: Non è stata restituita alcuna immagine."
  | TransformResult.quotaExceeded _ =>
      "❌ Errore 429: Hai esaurito la quota limite gratuita del modello Gemini 3 Pro (Resource Exhausted).\n\nCosa significa: Google ha limitato quante immagini puoi fare al minuto/giornalmente con questo modello gratuito.\nSoluzioni: \n1. Attendere circa 1 o 2 minuti e riprovare (i limiti di solito sono calcolati sui minuti/ore).\n2. Se continua, hai superato il massimale di oggi."
  | TransformResult.generationFailed e =>
      "Si è verificato un errore durante la generazione dell\x27immagine: " ++ e

/-- The user-facing reply texts of the serverless variant, by outcome. -/
def apiReply : TransformResult → String
  | TransformResult.noReferencesConfigured =>
      "Non hai impostato alcuna immagine di referenza per lo stile. Per favore, usa /set_style e inviami alcune immagini da usare come moodboard."
  | TransformResult.generatedImage _ => "Ecco la tua immagine trasformata!"
  | TransformResult.generationEmpty => "Generazione fallita."
  | TransformResult.quotaExceeded _ =>
      "❌ Errore 429: Hai esaurito la quota limite di Gemini. Riprova tra un minuto."
  | TransformResult.generationFailed e => "Errore: " ++ e

/-- The full sequence of replies the serverless subject branch sends
for a given oracle: the guidance message on an empty reference list,
otherwise the progress message followed by the outcome reply. -/
def apiReplies (gen : List Content → GenResponse) (subject_image : Nat)
    (ref_file_ids : List Nat) : List String :=
  if ref_file_ids.isEmpty then
    [apiReply TransformResult.noReferencesConfigured]
  else
    ["Ricevuto il soggetto. Scaricando temporaneamente le immagini per Gemini... Attendi.",
      apiReply (apiTransform gen subject_image ref_file_ids).1]

/-- A concrete oracle returning a success with no parts, used for
concrete evaluations. -/
def genNoParts : List Content → GenResponse :=
  fun _ => GenResponse.success []

/-- A concrete response-part list used for concrete evaluations: the
first accepted part is at index 2 and carries image `7`. -/
def partsW : List Part :=
  [⟨false, some 1⟩, ⟨true, none⟩, ⟨true, some 7⟩, ⟨false, some 9⟩]

/-- A concrete oracle returning `partsW`, used for concrete
evaluations. -/
def genPartsW : List Content → GenResponse :=
  fun _ => GenResponse.success partsW

/-! ## Lemmas about substring containment -/

theorem startsWithL_iff (n : List Char) : ∀ l : List Char,
    startsWithL n l = true ↔ ∃ q, l = n ++ q := by
  induction n with
  | nil =>
    intro l
    simp [startsWithL]
  | cons a as ih =>
    intro l
    cases l with
    | nil =>
      simp [startsWithL]
    | cons b bs =>
      simp only [startsWithL, Bool.and_eq_true, beq_iff_eq, ih bs, List.cons_append,
        List.cons.injEq]
      constructor
      · rintro ⟨rfl, q, rfl⟩
        exact ⟨q, rfl, rfl⟩
      · rintro ⟨q, rfl, rfl⟩
        exact ⟨rfl, q, rfl⟩

theorem containsL_iff (n : List Char) : ∀ l : List Char,
    containsL n l = true ↔ ∃ p q, l = p ++ n ++ q := by
  intro l
  induction l with
  | nil =>
    simp only [containsL, startsWithL_iff]
    constructor
    · rintro ⟨q, hq⟩
      exact ⟨[], q, by simpa using hq⟩
    · rintro ⟨p, q, hpq⟩
      rcases List.append_eq_nil.mp (List.append_eq_nil.mp hpq.symm).1 with ⟨-, hn⟩
      exact ⟨[], by simp [hn]⟩
  | cons b bs ih =>
    simp only [containsL, Bool.or_eq_true, startsWithL_iff, ih]
    constructor
    · rintro (⟨q, hq⟩ | ⟨p, q, hpq⟩)
      · exact ⟨[], q, by simpa using hq⟩
      · exact ⟨b :: p, q, by simp [hpq]⟩
    · rintro ⟨p, q, hpq⟩
      cases p with
      | nil =>
        exact Or.inl ⟨q, by simpa using hpq⟩
      | cons x xs =>
        right
        simp only [List.cons_append, List.cons.injEq] at hpq
        exact ⟨xs, q, hpq.2⟩

theorem strContains_iff (hay needle : String) :
    strContains hay needle = true ↔ SpecSubstr needle hay := by
  simp [strContains, SpecSubstr, containsL_iff]

/-! ## C2: the intent classifier decision -/

example : classify true none = Intent.SAVE_AS_REFERENCE := by decide
example : classify false (some "please add to mood") = Intent.SAVE_AS_REFERENCE := by decide
example : classify false (some "nice sunset") = Intent.TREAT_AS_SUBJECT := by decide
example : classify false (some "  SALVA questa  ") = Intent.SAVE_AS_REFERENCE := by decide
example : classify false none = Intent.TREAT_AS_SUBJECT := by decide

/-- C2: for every session mode flag and caption, the classifier decides
`SAVE_AS_REFERENCE` exactly when the session mode is true or the
trimmed, lowercased caption contains (as a substring) one of the
keywords `add`, `ref`, `style`, `salva`, `mood`; otherwise it decides
`TREAT_AS_SUBJECT`. -/
theorem C2_intent_classifier (sessionMode : Bool) (caption : Option String) :
    classify sessionMode caption = Intent.SAVE_AS_REFERENCE ↔
      sessionMode = true ∨ ∃ w ∈ saveKeywords, SpecSubstr w (caption_text caption) := by
  have hkey : is_caption_asking_to_save (caption_text caption) = true ↔
      ∃ w ∈ saveKeywords, SpecSubstr w (caption_text caption) := by
    simp [is_caption_asking_to_save, List.any_eq_true, strContains_iff]
  have hcls : classify sessionMode caption = Intent.SAVE_AS_REFERENCE ↔
      (sessionMode || is_caption_asking_to_save (caption_text caption)) = true := by
    unfold classify
    split <;> simp_all
  rw [hcls, Bool.or_eq_true, hkey]

/-- Concrete instance of `C2_intent_classifier`: with session mode off,
the caption "please add to mood" is classified as a save request. -/
theorem C2_intent_classifier_witness :
    classify false (some "please add to mood") = Intent.SAVE_AS_REFERENCE :=
  (C2_intent_classifier false (some "please add to mood")).mpr
    (Or.inr ⟨"add", by decide, "please ".data, " to mood".data, by decide⟩)

/-! ## Lemmas about the stable sort -/

theorem sortBy_of_pairwise (le : α → α → Bool) (l : List α)
    (h : List.Pairwise (fun x y => le x y = true) l) : sortBy le l = l := by
  induction l with
  | nil => rfl
  | cons a as ih =>
    have h1 : sortBy le as = as := ih h.of_cons
    show insertSorted le a (sortBy le as) = a :: as
    rw [h1]
    cases as with
    | nil => rfl
    | cons b bs =>
      have hab : le a b = true := (List.pairwise_cons.mp h).1 b (by simp)
      simp [insertSorted, hab]

theorem mem_insertSorted (le : α → α → Bool) (a x : α) (l : List α) :
    x ∈ insertSorted le a l ↔ x = a ∨ x ∈ l := by
  induction l with
  | nil => simp [insertSorted]
  | cons b bs ih =>
    simp only [insertSorted]
    split
    · simp
    · simp only [List.mem_cons, ih]
      tauto

theorem mem_sortBy (le : α → α → Bool) (x : α) (l : List α) :
    x ∈ sortBy le l ↔ x ∈ l := by
  induction l with
  | nil => simp [sortBy]
  | cons a as ih =>
    show x ∈ insertSorted le a (sortBy le as) ↔ _
    rw [mem_insertSorted]
    simp [ih]

/-! ## Lemmas about lexicographic comparison -/

theorem lexLt_irrefl (l : List Char) : lexLt l l = false := by
  induction l with
  | nil => rfl
  | cons a as ih => simp [lexLt, lt_irrefl, ih]

theorem lexLt_asymm : ∀ l1 l2 : List Char, lexLt l1 l2 = true → lexLt l2 l1 = false := by
  intro l1
  induction l1 with
  | nil =>
    intro l2 h
    cases l2 with
    | nil => simp [lexLt] at h
    | cons b bs => rfl
  | cons a as ih =>
    intro l2 h
    cases l2 with
    | nil => simp [lexLt] at h
    | cons b bs =>
      by_cases hab : a < b
      · simp [lexLt, hab, asymm hab]
      · by_cases hba : b < a
        · simp [lexLt, hab, hba] at h
        · simp only [lexLt, if_neg hab, if_neg hba] at h
          simp only [lexLt, if_neg hab, if_neg hba]
          exact ih bs h

theorem ne_of_lexLt {l1 l2 : List Char} (h : lexLt l1 l2 = true) : l1 ≠ l2 := by
  intro he
  rw [he, lexLt_irrefl] at h
  exact Bool.false_ne_true h

theorem lexLt_append_left (p l1 l2 : List Char) (h : lexLt l1 l2 = true) :
    lexLt (p ++ l1) (p ++ l2) = true := by
  induction p with
  | nil => exact h
  | cons a p ih => simpa [lexLt, lt_irrefl] using ih

theorem lexLt_append_of_length_eq :
    ∀ (l1 l2 s1 s2 : List Char), l1.length = l2.length → lexLt l1 l2 = true →
      lexLt (l1 ++ s1) (l2 ++ s2) = true := by
  intro l1
  induction l1 with
  | nil =>
    intro l2 s1 s2 hlen h
    cases l2 with
    | nil => simp [lexLt] at h
    | cons b bs => simp at hlen
  | cons a as ih =>
    intro l2 s1 s2 hlen h
    cases l2 with
    | nil => simp at hlen
    | cons b bs =>
      simp only [List.length_cons, Nat.add_right_cancel_iff] at hlen
      by_cases hab : a < b
      · simp [lexLt, hab]
      · by_cases hba : b < a
        · simp [lexLt, hab, hba] at h
        · simp only [lexLt, if_neg hab, if_neg hba] at h
          simp only [List.cons_append, lexLt, if_neg hab, if_neg hba]
          exact ih bs s1 s2 hlen h

/-! ## The decimal rendering used in timestamped file names

Facts about `Nat.toDigits 10` (the character list behind `Nat.repr`):
its recursion equations, and strict lexicographic monotonicity on
numbers of equal digit width. -/

theorem toDigitsCore_shift (fuel : Nat) :
    ∀ (n : Nat) (ds : List Char), n < fuel →
      Nat.toDigitsCore 10 fuel n ds = Nat.toDigitsCore 10 fuel n [] ++ ds := by
  induction fuel with
  | zero =>
    intro n ds h
    omega
  | succ f ih =>
    intro n ds h
    simp only [Nat.toDigitsCore]
    by_cases h0 : n / 10 = 0
    · simp [h0]
    · have hpos : 0 < n := Nat.pos_of_ne_zero (fun hz => h0 (by simp [hz]))
      have h1 : n / 10 < n := Nat.div_lt_self hpos (by omega)
      simp only [h0, if_false]
      rw [ih (n / 10) ((n % 10).digitChar :: ds) (by omega),
        ih (n / 10) [(n % 10).digitChar] (by omega)]
      simp

theorem toDigitsCore_fuel (n : Nat) :
    ∀ fuel, n < fuel → Nat.toDigitsCore 10 fuel n [] = Nat.toDigits 10 n := by
  induction n using Nat.strong_induction_on with
  | _ n ih =>
    intro fuel hf
    cases fuel with
    | zero => omega
    | succ f =>
      rw [Nat.toDigits]
      simp only [Nat.toDigitsCore]
      by_cases h0 : n / 10 = 0
      · simp [h0]
      · have hpos : 0 < n := Nat.pos_of_ne_zero (fun hz => h0 (by simp [hz]))
        have h1 : n / 10 < n := Nat.div_lt_self hpos (by omega)
        simp only [h0, if_false]
        rw [toDigitsCore_shift f (n / 10) [(n % 10).digitChar] (by omega),
          toDigitsCore_shift n (n / 10) [(n % 10).digitChar] (by omega),
          ih (n / 10) h1 f (by omega), ih (n / 10) h1 n (by omega)]

theorem toDigits_lt_ten {n : Nat} (h : n < 10) :
    Nat.toDigits 10 n = [Nat.digitChar n] := by
  rw [Nat.toDigits]
  simp only [Nat.toDigitsCore]
  rw [Nat.div_eq_of_lt h, Nat.mod_eq_of_lt h]
  simp

theorem toDigits_ge_ten {n : Nat} (h : 10 ≤ n) :
    Nat.toDigits 10 n = Nat.toDigits 10 (n / 10) ++ [Nat.digitChar (n % 10)] := by
  rw [Nat.toDigits]
  simp only [Nat.toDigitsCore]
  have h0 : ¬ n / 10 = 0 := by
    have := (Nat.one_le_div_iff (by omega : (0:Nat) < 10)).mpr h
    omega
  have h1 : n / 10 < n := Nat.div_lt_self (by omega) (by omega)
  simp only [h0, if_false]
  rw [toDigitsCore_shift n (n / 10) [(n % 10).digitChar] (by omega),
    toDigitsCore_fuel (n / 10) n (by omega)]

theorem toDigits_length_pos (n : Nat) : 0 < (Nat.toDigits 10 n).length := by
  by_cases h : n < 10
  · simp [toDigits_lt_ten h]
  · rw [toDigits_ge_ten (by omega)]
    simp

theorem digitChar_mono : ∀ n, n < 10 → ∀ m, m < n → Nat.digitChar m < Nat.digitChar n := by
  decide

theorem toDigits_lexLt : ∀ n m : Nat, m < n →
    (Nat.toDigits 10 m).length = (Nat.toDigits 10 n).length →
    lexLt (Nat.toDigits 10 m) (Nat.toDigits 10 n) = true := by
  intro n
  induction n using Nat.strong_induction_on with
  | _ n ih =>
    intro m hmn hlen
    by_cases hn : n < 10
    · have hm : m < 10 := by omega
      rw [toDigits_lt_ten hm, toDigits_lt_ten hn]
      simp [lexLt, digitChar_mono n hn m hmn]
    · push_neg at hn
      by_cases hm : m < 10
      · exfalso
        rw [toDigits_lt_ten hm, toDigits_ge_ten hn] at hlen
        have := toDigits_length_pos (n / 10)
        simp only [List.length_cons, List.length_nil, List.length_append] at hlen
        omega
      · push_neg at hm
        rw [toDigits_ge_ten hm, toDigits_ge_ten hn] at hlen ⊢
        simp only [List.length_append, List.length_cons, List.length_nil] at hlen
        have hlen' : (Nat.toDigits 10 (m / 10)).length =
            (Nat.toDigits 10 (n / 10)).length := by omega
        have hdiv : m / 10 ≤ n / 10 := Nat.div_le_div_right (le_of_lt hmn)
        rcases lt_or_eq_of_le hdiv with hlt | heq
        · exact lexLt_append_of_length_eq _ _ _ _ hlen'
            (ih (n / 10) (Nat.div_lt_self (by omega) (by omega)) (m / 10) hlt hlen')
        · have hmod : m % 10 < n % 10 := by omega
          rw [heq]
          apply lexLt_append_left
          simp [lexLt, digitChar_mono (n % 10) (Nat.mod_lt n (by omega)) (m % 10) hmod]

/-! ## Lemmas about the serverless reference store -/

theorem clockOrdered_initial : ClockOrdered initialState := by
  constructor <;> simp [initialState]

theorem clockOrdered_insert {st : SupabaseState} (h : ClockOrdered st)
    (c f : String) : ClockOrdered (insertStyleFile st c f) := by
  obtain ⟨hpw, hlt⟩ := h
  constructor
  · rw [insertStyleFile, List.pairwise_append]
    refine ⟨hpw, by simp, ?_⟩
    intro a ha b hb
    simp only [List.mem_singleton] at hb
    subst hb
    exact hlt a ha
  · intro r hr
    simp only [insertStyleFile, List.mem_append, List.mem_singleton] at hr
    rcases hr with hr | rfl
    · exact Nat.lt_succ_of_lt (hlt r hr)
    · exact Nat.lt_succ_self _

theorem sortBy_filter_eq {st : SupabaseState} (h : ClockOrdered st) (c : String) :
    sortBy rowLe (st.style_references.filter (fun r => r.chat_id == c)) =
      st.style_references.filter (fun r => r.chat_id == c) := by
  refine sortBy_of_pairwise rowLe _ ((h.1.filter _).imp ?_)
  intro a b hab
  simp only [rowLe, decide_eq_true_eq]
  omega

theorem selectStyleFiles_eq_filter {st : SupabaseState} (h : ClockOrdered st)
    (c : String) :
    selectStyleFiles st c =
      (st.style_references.filter (fun r => r.chat_id == c)).map StyleRow.file_id := by
  rw [selectStyleFiles, sortBy_filter_eq h]

theorem selectStyleFiles_insert_same {st : SupabaseState} (h : ClockOrdered st)
    (c f : String) :
    selectStyleFiles (insertStyleFile st c f) c = selectStyleFiles st c ++ [f] := by
  rw [selectStyleFiles_eq_filter (clockOrdered_insert h c f),
    selectStyleFiles_eq_filter h]
  simp [insertStyleFile, List.filter_append]

theorem selectStyleFiles_appendAll {st : SupabaseState} (h : ClockOrdered st)
    (c : String) (handles : List String) :
    selectStyleFiles (appendAllFiles st c handles) c =
      selectStyleFiles st c ++ handles := by
  induction handles generalizing st with
  | nil => simp [appendAllFiles]
  | cons a hs ih =>
    show selectStyleFiles (appendAllFiles (insertStyleFile st c a) c hs) c = _
    rw [ih (clockOrdered_insert h c a), selectStyleFiles_insert_same h c a,
      List.append_assoc]
    rfl

/-! ## Lemmas about the file-system store -/

theorem repr_data (n : Nat) : (Nat.repr n).data = Nat.toDigits 10 n := rfl

theorem tsName_data (c : String) (ts : Nat) :
    (tsName c ts).data =
      (c.data ++ "_".data) ++ (Nat.toDigits 10 ts ++ ".jpg".data) := by
  simp [tsName, String.data_append, List.append_assoc, repr_data]

theorem tsName_lexLt (c : String) {m n : Nat} (hmn : m < n)
    (hlen : (Nat.toDigits 10 m).length = (Nat.toDigits 10 n).length) :
    lexLt (tsName c m).data (tsName c n).data = true := by
  rw [tsName_data, tsName_data]
  exact lexLt_append_left _ _ _
    (lexLt_append_of_length_eq _ _ _ _ hlen (toDigits_lexLt n m hmn hlen))

theorem startsWithL_append_self : ∀ p r : List Char, startsWithL p (p ++ r) = true := by
  intro p r
  induction p with
  | nil => rfl
  | cons a as ih => simp [startsWithL, ih]

theorem tsName_matches_jpg (c : String) (ts : Nat) :
    matchesGlob c ".jpg" (tsName c ts) = true := by
  rw [matchesGlob, Bool.and_eq_true]
  constructor
  · rw [String.data_append, tsName_data]
    exact startsWithL_append_self _ _
  · rw [endsWithL, tsName_data, List.reverse_append, List.reverse_append,
      List.append_assoc]
    exact startsWithL_append_self _ _

theorem tsName_not_png (c : String) (ts : Nat) :
    matchesGlob c ".png" (tsName c ts) = false := by
  have hends : endsWithL ".png".data (tsName c ts).data = false := by
    rw [endsWithL, tsName_data, List.reverse_append, List.reverse_append,
      List.append_assoc]
    rw [show ".png".data.reverse = 'g' :: 'n' :: 'p' :: '.' :: [] from rfl,
      show ".jpg".data.reverse = 'g' :: 'p' :: 'j' :: '.' :: [] from rfl]
    simp [startsWithL, List.cons_append, show ('g' == 'g') = true from rfl,
      show ('n' == 'p') = false from rfl]
  rw [matchesGlob, hends, Bool.and_false]

theorem length_insertSorted (le : α → α → Bool) (a : α) :
    ∀ l : List α, (insertSorted le a l).length = l.length + 1 := by
  intro l
  induction l with
  | nil => rfl
  | cons b bs ih =>
    simp only [insertSorted]
    split
    · simp
    · simp [ih]

theorem length_sortBy (le : α → α → Bool) (l : List α) :
    (sortBy le l).length = l.length := by
  induction l with
  | nil => rfl
  | cons a as ih =>
    show (insertSorted le a (sortBy le as)).length = _
    rw [length_insertSorted, ih]
    rfl

theorem get_style_images_length (files : List String) (c : String) :
    (get_style_images files c).length =
      (files.filter (matchesGlob c ".jpg")).length +
        (files.filter (matchesGlob c ".png")).length := by
  rw [get_style_images, length_sortBy, List.length_append]

theorem saveStyleImage_fresh {files : List String} {c : String} {ts : Nat}
    (h : tsName c ts ∉ files) :
    saveStyleImage files c ts = files ++ [tsName c ts] := by
  rw [saveStyleImage, if_neg h]

theorem mem_saveStyleImage (files : List String) (c : String) (ts : Nat) :
    tsName c ts ∈ saveStyleImage files c ts := by
  rw [saveStyleImage]
  split
  · assumption
  · simp

theorem saveStyleImage_mem {files : List String} {c : String} {ts : Nat}
    (h : tsName c ts ∈ files) : saveStyleImage files c ts = files := by
  rw [saveStyleImage, if_pos h]

theorem saveAll_eq_append (c : String) :
    ∀ (tss : List Nat) (files : List String),
      (∀ ts ∈ tss, tsName c ts ∉ files) →
      tss.Pairwise (fun a b => tsName c a ≠ tsName c b) →
      saveAllStyleImages files c tss = files ++ tss.map (tsName c) := by
  intro tss
  induction tss with
  | nil =>
    intro files _ _
    simp [saveAllStyleImages]
  | cons t rest ih =>
    intro files hnotin hpw
    have hnotin' : ∀ ts ∈ rest, tsName c ts ∉ files ++ [tsName c t] := by
      intro ts hts
      simp only [List.mem_append, List.mem_singleton]
      rintro (hmem | heq)
      · exact hnotin ts (by simp [hts]) hmem
      · exact (List.pairwise_cons.mp hpw).1 ts hts heq.symm
    show saveAllStyleImages (saveStyleImage files c t) c rest = _
    rw [saveStyleImage_fresh (hnotin t (by simp)),
      ih (files ++ [tsName c t]) hnotin' hpw.of_cons]
    simp

theorem get_style_images_clean_append (c : String) (files names : List String)
    (hclean : CleanFor files c)
    (hjpg : ∀ nm ∈ names, matchesGlob c ".jpg" nm = true)
    (hpng : ∀ nm ∈ names, matchesGlob c ".png" nm = false) :
    get_style_images (files ++ names) c = sortBy strLe names := by
  rw [get_style_images]
  have h1 : (files ++ names).filter (matchesGlob c ".jpg") = names := by
    rw [List.filter_append,
      List.filter_eq_nil_iff.mpr (fun f hf => by simp [(hclean f hf).1]),
      List.filter_eq_self.mpr hjpg]
    simp
  have h2 : (files ++ names).filter (matchesGlob c ".png") = [] := by
    rw [List.filter_append,
      List.filter_eq_nil_iff.mpr (fun f hf => by simp [(hclean f hf).2]),
      List.filter_eq_nil_iff.mpr (fun nm hnm => by simp [hpng nm hnm])]
    rfl
  rw [h1, h2, List.append_nil]

theorem get_saveAll (c : String) (files : List String) (tss : List Nat)
    (hclean : CleanFor files c)
    (hmono : tss.Pairwise (· < ·))
    (hwidth : ∀ a ∈ tss, ∀ b ∈ tss,
      (Nat.toDigits 10 a).length = (Nat.toDigits 10 b).length) :
    get_style_images (saveAllStyleImages files c tss) c = tss.map (tsName c) := by
  have hpwlex : tss.Pairwise
      (fun a b => lexLt (tsName c a).data (tsName c b).data = true) :=
    hmono.imp_of_mem (fun {a b} ha hb hab => tsName_lexLt c hab (hwidth a ha b hb))
  have hpwne : tss.Pairwise (fun a b => tsName c a ≠ tsName c b) :=
    hpwlex.imp (fun hab heq => ne_of_lexLt hab (congrArg String.data heq))
  have hnotin : ∀ ts ∈ tss, tsName c ts ∉ files := by
    intro ts _ hmem
    have hf := (hclean _ hmem).1
    rw [tsName_matches_jpg] at hf
    exact absurd hf (by simp)
  rw [saveAll_eq_append c tss files hnotin hpwne,
    get_style_images_clean_append c files _ hclean
      (fun nm hnm => by
        rcases List.mem_map.mp hnm with ⟨ts, _, rfl⟩
        exact tsName_matches_jpg c ts)
      (fun nm hnm => by
        rcases List.mem_map.mp hnm with ⟨ts, _, rfl⟩
        exact tsName_not_png c ts)]
  refine sortBy_of_pairwise strLe _ ?_
  rw [List.pairwise_map]
  refine hpwlex.imp (fun hab => ?_)
  rw [strLe, lexLt_asymm _ _ hab]
  rfl

/-! ## C7: append then list preserves insertion order -/

example :
    get_style_files (some (appendAllFiles initialState "1" ["A", "B", "C"])) "1" =
      ["A", "B", "C"] := by decide

/-- C7 as stated is false for the file-system store: saving twice
within the same millisecond reuses the same file name, so appending the
handle `1_100.jpg` twice lists a single entry rather than the appended
two-element sequence; and timestamps whose decimal renderings have
different widths (here 9 then 10) list in reversed order, because
`sorted` compares names lexicographically (`1_10.jpg` sorts before
`1_9.jpg`).  In both runs the list is not the appended handle sequence
in insertion order. -/
theorem C7_counterexample :
    get_style_images (saveAllStyleImages [] "1" [100, 100]) "1" = ["1_100.jpg"] ∧
    get_style_images (saveAllStyleImages [] "1" [9, 10]) "1" =
      ["1_10.jpg", "1_9.jpg"] := by
  constructor <;> rfl

/-- C7 amended: the database-backed store preserves insertion order
unconditionally: for every clock-ordered state, appending a sequence of
handles for a conversation and then listing that conversation returns
the previous contents followed by the appended handles (oldest first),
and a fresh store lists the empty sequence.  The file-system store does
the same provided the save timestamps strictly increase and their
decimal renderings have equal width (both true of the millisecond clock
the code reads): saving at such timestamps over a directory holding no
file of this chat and then listing returns exactly the saved names in
insertion order, and an empty directory lists the empty sequence. -/
theorem C7_append_then_list_order (st : SupabaseState) (c : String)
    (handles : List String) (files : List String) (c2 : String) (tss : List Nat)
    (h : ClockOrdered st) (hclean : CleanFor files c2)
    (hmono : tss.Pairwise (· < ·))
    (hwidth : ∀ a ∈ tss, ∀ b ∈ tss,
      (Nat.toDigits 10 a).length = (Nat.toDigits 10 b).length) :
    get_style_files (some (appendAllFiles st c handles)) c =
        get_style_files (some st) c ++ handles ∧
    get_style_files (some initialState) c = [] ∧
    get_style_images (saveAllStyleImages files c2 tss) c2 = tss.map (tsName c2) ∧
    get_style_images [] c2 = [] :=
  ⟨selectStyleFiles_appendAll h c handles, rfl,
    get_saveAll c2 files tss hclean hmono hwidth, rfl⟩

/-- Concrete instance of `C7_append_then_list_order`: appending
`[A, B, C]` to a fresh database store lists `[A, B, C]`, and saving at
the equal-width increasing timestamps `100, 101, 102` in an empty
directory lists the three timestamped names in insertion order. -/
theorem C7_append_then_list_order_witness :
    get_style_files (some (appendAllFiles initialState "1" ["A", "B", "C"])) "1" =
        ["A", "B", "C"] ∧
    get_style_images (saveAllStyleImages [] "9" [100, 101, 102]) "9" =
      ["9_100.jpg", "9_101.jpg", "9_102.jpg"] := by
  have h := C7_append_then_list_order initialState "1" ["A", "B", "C"] [] "9"
    [100, 101, 102] clockOrdered_initial (fun f hf => absurd hf (List.not_mem_nil f))
    (by decide) (by decide)
  constructor
  · rw [h.1, h.2.1]
    rfl
  · rw [h.2.2.1]
    rfl

/-! ## C8: clear then list yields the empty sequence -/

/-- C8: in both store variants, clearing a conversation and then
listing it yields the empty sequence, regardless of prior contents. -/
theorem C8_clear_then_list_empty (files : List String) (st : SupabaseState)
    (c : String) :
    get_style_files (clear_style_files (some st) c) c = [] ∧
    get_style_images (clear_style files c) c = [] := by
  constructor
  · show (sortBy rowLe
        (((st.style_references.filter (fun r => !(r.chat_id == c))).filter
          (fun r => r.chat_id == c)))).map StyleRow.file_id = []
    have hnil : (st.style_references.filter (fun r => !(r.chat_id == c))).filter
        (fun r => r.chat_id == c) = [] := by
      rw [List.filter_filter]
      apply List.filter_eq_nil_iff.mpr
      intro a _
      simp
    rw [hnil]
    rfl
  · rw [List.eq_nil_iff_forall_not_mem]
    intro x hx
    rw [get_style_images, mem_sortBy, List.mem_append] at hx
    have hxclear : x ∈ clear_style files c ∧
        (matchesGlob c ".jpg" x = true ∨ matchesGlob c ".png" x = true) := by
      rcases hx with hx | hx <;> rcases List.mem_filter.mp hx with ⟨h1, h2⟩
      exacts [⟨h1, Or.inl h2⟩, ⟨h1, Or.inr h2⟩]
    rcases List.mem_filter.mp hxclear.1 with ⟨hxf, hnc⟩
    have hmem : x ∈ get_style_images files c := by
      rw [get_style_images, mem_sortBy, List.mem_append]
      rcases hxclear.2 with hm | hm
      · exact Or.inl (List.mem_filter.mpr ⟨hxf, hm⟩)
      · exact Or.inr (List.mem_filter.mpr ⟨hxf, hm⟩)
    simp [hmem] at hnc

/-! ## C9: append does not deduplicate -/

/-- C9 as stated is false for the file-system store: saving the same
handle twice — which happens exactly when two saves fall in the same
millisecond, here timestamp 200 twice — overwrites the existing file
`2_200.jpg` instead of creating a second entry, so the listed sequence
has length 1 after two appends, not 2. -/
theorem C9_counterexample :
    saveStyleImage (saveStyleImage [] "2" 200) "2" 200 = ["2_200.jpg"] ∧
    (get_style_images (saveStyleImage (saveStyleImage [] "2" 200) "2" 200) "2").length
      = 1 := by
  constructor <;> rfl

/-- C9 amended: the database-backed append never deduplicates: every
`add_style_file` grows the listed sequence by exactly one entry, and
appending the same handle twice yields two stored entries.  The
file-system save grows the listed sequence by one exactly when its
timestamped file name is fresh; a second save at the same millisecond
reuses the same name and overwrites the file in place, leaving the
stored names unchanged. -/
theorem C9_append_no_dedup (st : SupabaseState) (c f : String)
    (files : List String) (c2 : String) (ts : Nat)
    (h : ClockOrdered st) (hfresh : tsName c2 ts ∉ files) :
    get_style_files (add_style_file (some st) c f) c =
        get_style_files (some st) c ++ [f] ∧
    (get_style_files (add_style_file (some st) c f) c).length =
        (get_style_files (some st) c).length + 1 ∧
    get_style_files (add_style_file (add_style_file (some st) c f) c f) c =
        get_style_files (some st) c ++ [f, f] ∧
    (get_style_images (saveStyleImage files c2 ts) c2).length =
        (get_style_images files c2).length + 1 ∧
    saveStyleImage (saveStyleImage files c2 ts) c2 ts = saveStyleImage files c2 ts := by
  have h1 : selectStyleFiles (insertStyleFile st c f) c =
      selectStyleFiles st c ++ [f] := selectStyleFiles_insert_same h c f
  have h2 : selectStyleFiles (insertStyleFile (insertStyleFile st c f) c f) c =
      selectStyleFiles (insertStyleFile st c f) c ++ [f] :=
    selectStyleFiles_insert_same (clockOrdered_insert h c f) c f
  refine ⟨h1, ?_, ?_, ?_, saveStyleImage_mem (mem_saveStyleImage files c2 ts)⟩
  · show (selectStyleFiles (insertStyleFile st c f) c).length = _
    rw [h1]
    simp [get_style_files]
  · show selectStyleFiles (insertStyleFile (insertStyleFile st c f) c f) c = _
    rw [h2, h1, List.append_assoc]
    rfl
  · rw [saveStyleImage_fresh hfresh, get_style_images_length,
      get_style_images_length, List.filter_append, List.filter_append]
    rw [show List.filter (matchesGlob c2 ".jpg") [tsName c2 ts] = [tsName c2 ts] by
        simp [List.filter, tsName_matches_jpg],
      show List.filter (matchesGlob c2 ".png") [tsName c2 ts] = [] by
        simp [List.filter, tsName_not_png]]
    simp only [List.length_append, List.length_cons, List.length_nil]
    omega

/-- Concrete instance of `C9_append_no_dedup`: appending the handle `A`
twice to a fresh database store yields the two-entry list `[A, A]`, and
a fresh-timestamped save in an empty directory grows the listed count
to one. -/
theorem C9_append_no_dedup_witness :
    get_style_files
        (add_style_file (add_style_file (some initialState) "1" "A") "1" "A") "1" =
        ["A", "A"] ∧
    (get_style_images (saveStyleImage [] "9" 100) "9").length = 1 := by
  have h := C9_append_no_dedup initialState "1" "A" [] "9" 100 clockOrdered_initial
    (List.not_mem_nil _)
  constructor
  · rw [h.2.2.1]
    rfl
  · rw [h.2.2.2.1]
    rfl

/-! ## C10: no StoreUnavailable condition exists -/

/-- C10 as stated is false for this code: when the persistence client is
not configured (`supabase` is `None`), `get_style_files` silently
returns the empty list — byte-identical to the answer for a genuinely
empty store — and every other store operation silently degrades to a
default; no `StoreUnavailable` condition is represented or signaled
anywhere in the interface. -/
theorem C10_counterexample :
    get_style_files none "1" = [] ∧
    get_style_files none "1" = get_style_files (some initialState) "1" ∧
    get_user_state none "1" = false ∧
    add_style_file none "1" "A" = none ∧
    clear_style_files none "1" = none ∧
    set_user_state none "1" true = none :=
  ⟨rfl, rfl, rfl, rfl, rfl, rfl⟩

/-- C10 amended: with the backend client unavailable, every store
operation silently degrades to a default — listing returns `[]`,
session-mode get returns `false`, and append, clear and session-mode
set are no-ops — indistinguishable from an empty configured store; no
`StoreUnavailable` condition is signaled. -/
theorem C10_silent_degradation (c f : String) (b : Bool) :
    get_style_files none c = [] ∧
    get_style_files none c = get_style_files (some initialState) c ∧
    get_user_state none c = false ∧
    add_style_file none c f = none ∧
    clear_style_files none c = none ∧
    set_user_state none c b = none :=
  ⟨rfl, rfl, rfl, rfl, rfl, rfl⟩

/-! ## C3: empty reference list fails fast with no generation call -/

/-- C3: with an empty stored reference list, both variants fail fast
with the no-references guidance outcome and the generation capability
is never invoked (the oracle call count is zero). -/
theorem C3_empty_refs_fail_fast (gen : List Content → GenResponse) (image : Nat) :
    mainTransform gen image [] = (TransformResult.noReferencesConfigured, 0) ∧
    apiTransform gen image [] = (TransformResult.noReferencesConfigured, 0) :=
  ⟨rfl, rfl⟩

/-! ## C4: payload ordering -/

/-- C4: for every non-empty reference list, the payload handed to the
generation capability is exactly the instruction text, then the
subject, then the truncated references, in both variants. -/
theorem C4_payload_order (image : Nat) (refs : List Nat) (h : refs ≠ []) :
    (mainCompose image refs).contents =
        Content.text prompt :: Content.image image ::
          ((refs.take 10).map Content.image) ∧
    apiCompose image refs =
        Content.text prompt :: Content.image image ::
          ((refs.take 10).map Content.image) := by
  refine ⟨?_, rfl⟩
  rw [mainCompose]
  split
  · rfl
  · rename_i hle
    rw [List.take_of_length_le (by omega)]

/-- Concrete instance of `C4_payload_order` at three references. -/
theorem C4_payload_order_witness :
    (mainCompose 0 [4, 5, 6]).contents =
        [Content.text prompt, Content.image 0, Content.image 4, Content.image 5,
          Content.image 6] ∧
    apiCompose 0 [4, 5, 6] =
        [Content.text prompt, Content.image 0, Content.image 4, Content.image 5,
          Content.image 6] :=
  C4_payload_order 0 [4, 5, 6] (by simp)

/-! ## C1: the reference cap -/

/-- C1 as stated is false for the serverless variant: with 15 stored
references it still performs the transform, using references `[0..9]`
only (the payload has 12 entries, so 5 references are silently
dropped), while its user-visible behavior — the assembled payload and
the full reply sequence — is byte-identical to a run with only the
first 10 references stored.  No `truncated` signal of any kind reaches
the caller. -/
theorem C1_counterexample :
    (List.range 15).length = 15 ∧
    (apiCompose 0 (List.range 15)).length = 12 ∧
    apiCompose 0 (List.range 15) = apiCompose 0 (List.range 10) ∧
    apiReplies genNoParts 0 (List.range 15) = apiReplies genNoParts 0 (List.range 10) :=
  ⟨rfl, rfl, rfl, rfl⟩

/-- C1 amended: in the polling variant, a reference list longer than 10
is truncated to its first 10 entries (oldest first) and the truncation
notice is sent to the user (`truncationNotice = true`), the payload
being exactly 1 instruction + 1 subject + 10 references drawn from
references `[0..9]`; the serverless variant assembles the same capped
payload but truncates silently, with no truncation signal. -/
theorem C1_cap_enforcement (image : Nat) (refs : List Nat) (h : refs.length > 10) :
    (mainCompose image refs).truncationNotice = true ∧
    (mainCompose image refs).contents =
        Content.text prompt :: Content.image image ::
          ((refs.take 10).map Content.image) ∧
    (mainCompose image refs).contents.length = 12 ∧
    apiCompose image refs =
        Content.text prompt :: Content.image image ::
          ((refs.take 10).map Content.image) ∧
    (apiCompose image refs).length = 12 := by
  have hlen : ((refs.take 10).map Content.image).length = 10 := by
    rw [List.length_map, List.length_take]
    omega
  rw [mainCompose, if_pos h]
  refine ⟨rfl, rfl, ?_, rfl, ?_⟩
  · simp [hlen]
    omega
  · rw [apiCompose]
    simp [hlen]
    omega

/-- Concrete instance of `C1_cap_enforcement` at 15 stored
references. -/
theorem C1_cap_enforcement_witness :
    (mainCompose 0 (List.range 15)).truncationNotice = true ∧
    (mainCompose 0 (List.range 15)).contents.length = 12 :=
  ⟨(C1_cap_enforcement 0 (List.range 15) (by simp)).1,
    (C1_cap_enforcement 0 (List.range 15) (by simp)).2.2.1⟩

/-! ## C5: result extraction -/

theorem extractImage_of_first (parts : List Part) :
    ∀ i : Nat, i < parts.length →
      (∀ j : Nat, j < i → resolvesToImage (parts.getD j defaultPart) = false) →
      resolvesToImage (parts.getD i defaultPart) = true →
      extractImage parts = (parts.getD i defaultPart).asImage := by
  induction parts with
  | nil =>
    intro i hi
    simp at hi
  | cons p ps ih =>
    intro i hi hprev hres
    cases i with
    | zero =>
      rw [List.getD_cons_zero] at hres ⊢
      simp [extractImage, hres]
    | succ i' =>
      have hp : resolvesToImage p = false := by
        have h0 := hprev 0 (Nat.succ_pos _)
        rwa [List.getD_cons_zero] at h0
      rw [List.getD_cons_succ]
      simp only [extractImage, hp, Bool.false_eq_true, if_false]
      exact ih i' (by simpa using hi)
        (fun j hj => by
          have := hprev (j + 1) (by omega)
          rwa [List.getD_cons_succ] at this)
        (by rwa [List.getD_cons_succ] at hres)

theorem extractImage_none_of_all (parts : List Part)
    (h : ∀ p ∈ parts, resolvesToImage p = false) : extractImage parts = none := by
  induction parts with
  | nil => rfl
  | cons p ps ih =>
    have hp : resolvesToImage p = false := h p (by simp)
    simp only [extractImage, hp, Bool.false_eq_true, if_false]
    exact ih (fun q hq => h q (by simp [hq]))

theorem mainReply_empty_ne_failed (e : String) :
    mainReply TransformResult.generationEmpty ≠
      mainReply (TransformResult.generationFailed e) := by
  intro hcontra
  have hd : (mainReply TransformResult.generationEmpty).data.head? =
      (mainReply (TransformResult.generationFailed e)).data.head? :=
    congrArg (fun s => s.data.head?) hcontra
  rw [show mainReply (TransformResult.generationFailed e) =
      "Si è verificato un errore durante la generazione dell\x27immagine: " ++ e
    from rfl, String.data_append, List.head?_append] at hd
  rw [show ("Si è verificato un errore durante la generazione dell\x27immagine: ").data.head? =
      some 'S' from rfl] at hd
  simp only [Option.or_some] at hd
  exact absurd hd (by decide)

theorem apiReply_empty_ne_failed (e : String) :
    apiReply TransformResult.generationEmpty ≠
      apiReply (TransformResult.generationFailed e) := by
  intro hcontra
  have hd : (apiReply TransformResult.generationEmpty).data.head? =
      (apiReply (TransformResult.generationFailed e)).data.head? :=
    congrArg (fun s => s.data.head?) hcontra
  rw [show apiReply (TransformResult.generationFailed e) = "Errore: " ++ e from rfl,
    String.data_append, List.head?_append] at hd
  rw [show ("Errore: ").data.head? = some 'E' from rfl] at hd
  simp only [Option.or_some] at hd
  exact absurd hd (by decide)

/-- C5: when the generation call succeeds, the result is the first
response part in scan order that resolves to an image; when no part
resolves, the outcome is the empty-generation condition, whose
user-facing reply is distinct from every failure reply in both
variants. -/
theorem C5_first_image_or_empty (gen : List Content → GenResponse) (image : Nat)
    (refs : List Nat) (parts : List Part)
    (hrefs : refs.isEmpty = false)
    (hgen : gen (mainCompose image refs).contents = GenResponse.success parts) :
    (∀ i v, i < parts.length →
        (∀ j, j < i → resolvesToImage (parts.getD j defaultPart) = false) →
        resolvesToImage (parts.getD i defaultPart) = true →
        (parts.getD i defaultPart).asImage = some v →
        (mainTransform gen image refs).1 = TransformResult.generatedImage v) ∧
    ((∀ p ∈ parts, resolvesToImage p = false) →
        (mainTransform gen image refs).1 = TransformResult.generationEmpty) ∧
    (∀ e, mainReply TransformResult.generationEmpty ≠
          mainReply (TransformResult.generationFailed e) ∧
        apiReply TransformResult.generationEmpty ≠
          apiReply (TransformResult.generationFailed e)) := by
  have htr : mainTransform gen image refs =
      match extractImage parts with
      | some img => (TransformResult.generatedImage img, 1)
      | none => (TransformResult.generationEmpty, 1) := by
    rw [mainTransform, if_neg (by simp [hrefs]), hgen]
  refine ⟨?_, ?_, fun e => ⟨mainReply_empty_ne_failed e, apiReply_empty_ne_failed e⟩⟩
  · intro i v hi hprev hres hv
    have hx : extractImage parts = some v := by
      rw [extractImage_of_first parts i hi hprev hres, hv]
    rw [htr, hx]
  · intro hall
    rw [htr, extractImage_none_of_all parts hall]

/-- Concrete instance of `C5_first_image_or_empty`: in `partsW` the
first part resolving to an image is at index 2 and carries image `7`,
which becomes the transform result. -/
theorem C5_first_image_or_empty_witness :
    (mainTransform genPartsW 0 [1]).1 = TransformResult.generatedImage 7 :=
  (C5_first_image_or_empty genPartsW 0 [1] partsW rfl rfl).1 2 7 (by decide)
    (by decide) (by decide) (by decide)

/-! ## C6: error classification -/

/-- C6: a generation failure is classified as the quota condition
exactly when its diagnostic text contains `"429"` or the
resource-exhaustion marker `"RESOURCE_EXHAUSTED"` as a substring, and
as a generic generation failure otherwise; no failure text classifies
as both, and the generic-failure replies of both variants carry the raw
diagnostic text as a substring. -/
theorem C6_error_classification (e : String) :
    (classify_error e = TransformResult.quotaExceeded e ↔
        (SpecSubstr "429" e ∨ SpecSubstr "RESOURCE_EXHAUSTED" e)) ∧
    (classify_error e = TransformResult.generationFailed e ↔
        ¬(SpecSubstr "429" e ∨ SpecSubstr "RESOURCE_EXHAUSTED" e)) ∧
    ¬(classify_error e = TransformResult.quotaExceeded e ∧
        classify_error e = TransformResult.generationFailed e) ∧
    SpecSubstr e (mainReply (TransformResult.generationFailed e)) ∧
    SpecSubstr e (apiReply (TransformResult.generationFailed e)) := by
  have hb : (strContains e "429" || strContains e "RESOURCE_EXHAUSTED") = true ↔
      (SpecSubstr "429" e ∨ SpecSubstr "RESOURCE_EXHAUSTED" e) := by
    simp [strContains_iff]
  have hmain : SpecSubstr e (mainReply (TransformResult.generationFailed e)) := by
    refine ⟨("Si è verificato un errore durante la generazione dell\x27immagine: ").data,
      [], ?_⟩
    rw [show mainReply (TransformResult.generationFailed e) =
        "Si è verificato un errore durante la generazione dell\x27immagine: " ++ e
      from rfl, String.data_append, List.append_nil]
  have hapi : SpecSubstr e (apiReply (TransformResult.generationFailed e)) := by
    refine ⟨("Errore: ").data, [], ?_⟩
    rw [show apiReply (TransformResult.generationFailed e) = "Errore: " ++ e from rfl,
      String.data_append, List.append_nil]
  rw [classify_error]
  by_cases hc : (strContains e "429" || strContains e "RESOURCE_EXHAUSTED") = true
  · rw [if_pos hc]
    exact ⟨by simp [hb.mp hc], by simp [hb.mp hc], by simp, hmain, hapi⟩
  · rw [if_neg hc]
    have hnot : ¬(SpecSubstr "429" e ∨ SpecSubstr "RESOURCE_EXHAUSTED" e) :=
      fun hcontra => hc (hb.mpr hcontra)
    exact ⟨by simp [hnot], by simp [hnot], by simp, hmain, hapi⟩

/-- Concrete instance of `C6_error_classification`: a diagnostic
containing `429` is classified as the quota condition. -/
theorem C6_error_classification_witness :
    classify_error "HTTP 429 back off" = TransformResult.quotaExceeded "HTTP 429 back off" :=
  (C6_error_classification "HTTP 429 back off").1.mpr
    (Or.inl ⟨"HTTP ".data, " back off".data, by decide⟩)

end TelegramAestheticBot
